import Mathlib

/-!
Verification development for the fluffy-sol-bot trading bot.

Shallow embedding of the core components named by the specification:
the Backtest Engine / Signal Evaluator (`src/backtest_engine.py`),
the Position Lifecycle Manager (`src/trade_manager.py`) and the
Strategy Evolver (`src/strategy_evolver.py`).

Python floats are modelled as exact rationals (`ℚ`); every arithmetic
expression below is the literal expression from the source.  External
collaborators (Jupiter swap execution, the batched price feed, wall
clock) are passed in as explicit function/value parameters, and file
persistence is modelled as explicit fields of the manager state.
-/

namespace Bt

/-- A candle record: the backtest only reads `close, high, low, volume, time`. -/
structure Candle where
  close : ℚ
  high : ℚ
  low : ℚ
  volume : ℚ
  time : ℚ
deriving DecidableEq

/-- Strategy parameter dict.  `run`/`_check_signal` read the first four
fields via `strategy.get(...)`; `stop_atr_mult` and `tp_percent` are carried
by evolver-produced dicts but never read by the engine. -/
structure Strategy where
  rsi_period : ℕ
  rsi_low : ℚ
  rsi_high : ℚ
  vol_mult : ℚ
  stop_atr_mult : ℚ
  tp_percent : ℚ
deriving DecidableEq

/-- `FEES['swap']` = 0.003. -/
def FEES_swap : ℚ := 0.003
/-- `FEES['slippage']` = 0.005. -/
def FEES_slippage : ℚ := 0.005
/-- `FEES['network']` = 0.000005. -/
def FEES_network : ℚ := 0.000005

/-- Python slice `l[-n:]`.  For `n = 0` the slice `l[-0:] = l[0:]` is the
whole list, hence the special case. -/
def lastSlice (n : ℕ) (l : List α) : List α :=
  if n = 0 then l else l.drop (l.length - n)

/-- The close-to-close changes `candles[i].close - candles[i-1].close`
for `i = 1 .. len-1` (the loop in `_calculate_rsi`). -/
def priceChanges : List Candle → List ℚ
  | a :: b :: rest => (b.close - a.close) :: priceChanges (b :: rest)
  | _ => []

/-- The `gains` list of `_calculate_rsi`: `change` when `change > 0`, else `0`. -/
def gains (candles : List Candle) : List ℚ :=
  (priceChanges candles).map (fun change => if 0 < change then change else 0)

/-- The `losses` list of `_calculate_rsi`: `0` when `change > 0`, else `abs(change)`. -/
def losses (candles : List Candle) : List ℚ :=
  (priceChanges candles).map (fun change => if 0 < change then 0 else |change|)

/-- `avg_gain = sum(gains[-period:]) / period`.  (For `period = 0` the Python
code raises `ZeroDivisionError`; in `ℚ` division by zero yields 0, and all
theorems about this definition assume `0 < period`.) -/
def avg_gain (candles : List Candle) (period : ℕ) : ℚ :=
  (lastSlice period (gains candles)).sum / (period : ℚ)

/-- `avg_loss = sum(losses[-period:]) / period`. -/
def avg_loss (candles : List Candle) (period : ℕ) : ℚ :=
  (lastSlice period (losses candles)).sum / (period : ℚ)

/-- `BacktestEngine._calculate_rsi`. -/
def calculateRsi (candles : List Candle) (period : ℕ) : ℚ :=
  if candles.length < period + 1 then 50.0
  else if avg_loss candles period = 0 then 100.0
  else
    let rs := avg_gain candles period / avg_loss candles period
    100 - (100 / (1 + rs))

/-- The categorical signal returned by `_check_signal`. -/
inductive Signal where
  | BUY
  | HOLD
deriving DecidableEq

/-- `BacktestEngine._check_signal`. -/
def checkSignal (candle : Candle) (strategy : Strategy) (history : List Candle) : Signal :=
  if history = [] then .HOLD
  else
    let rsi := calculateRsi (history ++ [candle]) strategy.rsi_period
    let avg_vol : ℚ :=
      if 20 ≤ history.length then ((lastSlice 20 history).map Candle.volume).sum / 20
      else candle.volume
    if strategy.rsi_low ≤ rsi ∧ rsi ≤ strategy.rsi_high ∧
        avg_vol * strategy.vol_mult < candle.volume then .BUY
    else .HOLD

/-- The `position` dict built on entry in `BacktestEngine.run`. -/
structure BtPosition where
  ptype : String
  entry : ℚ
  qty : ℚ
  fees : ℚ
  sl : ℚ
  tp : ℚ
deriving DecidableEq

/-- A trade record appended to the local `trades` list in `run`. -/
structure BtTrade where
  entry : ℚ
  exit : ℚ
  pnl : ℚ
  type : String
  timestamp : ℚ
deriving DecidableEq

/-- The local mutable state of one `run` call: `position`, `trades`, `equity`. -/
structure RunState where
  position : Option BtPosition
  trades : List BtTrade
  equity : ℚ
deriving DecidableEq

/-- The body of the `for i, candle in enumerate(candles)` loop in
`BacktestEngine.run`, for one candle `c` with history `hist = candles[:i]`.
`capital` is `self.capital` (only read, never written, by the method). -/
def stepCandle (capital : ℚ) (strategy : Strategy) (hist : List Candle) (c : Candle)
    (st : RunState) : RunState :=
  let signal := checkSignal c strategy hist
  match st.position with
  | none =>
    if signal = .BUY then
      let entry := c.close * (1 + FEES_slippage)
      let qty := (capital * 0.1) / entry
      let fees := (qty * entry * FEES_swap) + FEES_network
      let pos : BtPosition :=
        { ptype := "long", entry := entry, qty := qty, fees := fees,
          sl := entry * 0.85, tp := entry * 1.30 }
      { st with position := some pos }
    else st
  | some p =>
    if c.low ≤ p.sl then
      let pnl := (p.sl - p.entry) * p.qty - p.fees
      { position := none,
        trades := st.trades ++
          [{ entry := p.entry, exit := p.sl, pnl := pnl, type := "SL", timestamp := c.time }],
        equity := st.equity + pnl }
    else if p.tp ≤ c.high then
      let pnl := (p.tp - p.entry) * p.qty - p.fees
      { position := none,
        trades := st.trades ++
          [{ entry := p.entry, exit := p.tp, pnl := pnl, type := "TP", timestamp := c.time }],
        equity := st.equity + pnl }
    else st

/-- The candle loop of `run`: `hist` is the prefix `candles[:i]` already seen. -/
def runLoop (capital : ℚ) (strategy : Strategy) :
    List Candle → List Candle → RunState → RunState
  | _, [], st => st
  | hist, c :: rest, st =>
      runLoop capital strategy (hist ++ [c]) rest (stepCandle capital strategy hist c st)

/-- The result dict returned by `run`. -/
structure RunResult where
  total_trades : ℕ
  winning_trades : ℕ
  win_rate : ℚ
  total_pnl : ℚ
  final_equity : ℚ
  trades : List BtTrade
deriving DecidableEq

/-- `BacktestEngine.run`, as a function of `self.capital` and the arguments. -/
def runPure (capital : ℚ) (candles : List Candle) (strategy : Strategy) : RunResult :=
  let final := runLoop capital strategy [] candles { position := none, trades := [], equity := capital }
  { total_trades := final.trades.length,
    winning_trades := (final.trades.filter (fun t => 0 < t.pnl)).length,
    win_rate :=
      if final.trades = [] then 0
      else ((final.trades.filter (fun t => 0 < t.pnl)).length : ℚ) / (final.trades.length : ℚ),
    total_pnl := final.equity - capital,
    final_equity := final.equity,
    trades := final.trades }

/-- The engine object: `__init__` sets `capital`, `trades`, `equity_curve`. -/
structure BacktestEngine where
  capital : ℚ
  trades : List BtTrade
  equity_curve : List ℚ
deriving DecidableEq

/-- The method `BacktestEngine.run` as a state transformer on the engine.
The method body introduces local variables `position`, `trades`, `equity`
and only ever reads `self.capital`; it contains no assignment to any
attribute of `self`, so the resulting engine is the argument engine. -/
def BacktestEngine.run (e : BacktestEngine) (candles : List Candle) (strategy : Strategy) :
    RunResult × BacktestEngine :=
  (runPure e.capital candles strategy, e)

end Bt

namespace TM

/-- `trade_manager.Position`: an active trading position. -/
structure Position where
  mint : String
  symbol : String
  entry_price_usd : ℚ
  entry_time : ℚ
  position_size_usdc : ℚ
  token_amount : ℚ
  stop_loss_price : ℚ
  take_profit_price : ℚ
  current_price_usd : ℚ
  realized_pnl_usd : ℚ
deriving DecidableEq

/-- `Position.should_stop_loss`: `current_price_usd <= stop_loss_price`. -/
def Position.should_stop_loss (p : Position) : Bool :=
  decide (p.current_price_usd ≤ p.stop_loss_price)

/-- `Position.should_take_profit`: `current_price_usd >= take_profit_price`. -/
def Position.should_take_profit (p : Position) : Bool :=
  decide (p.take_profit_price ≤ p.current_price_usd)

/-- A JSON value stored in a serialized position dict: every `Position`
field is either a string or a float. -/
inductive PValue where
  | s (v : String)
  | q (v : ℚ)
deriving DecidableEq

/-- `Position.to_dict` = `dataclasses.asdict(self)`: field names to values,
in field declaration order. -/
def Position.to_dict (p : Position) : List (String × PValue) :=
  [("mint", .s p.mint), ("symbol", .s p.symbol),
   ("entry_price_usd", .q p.entry_price_usd), ("entry_time", .q p.entry_time),
   ("position_size_usdc", .q p.position_size_usdc), ("token_amount", .q p.token_amount),
   ("stop_loss_price", .q p.stop_loss_price), ("take_profit_price", .q p.take_profit_price),
   ("current_price_usd", .q p.current_price_usd), ("realized_pnl_usd", .q p.realized_pnl_usd)]

/-- Dict lookup by key (first occurrence). -/
def dlookup (k : String) : List (String × PValue) → Option PValue
  | [] => none
  | (k1, v) :: rest => if k1 = k then some v else dlookup k rest

/-- `Position.from_dict` = `cls(**data)`: read every field from the dict;
a missing or wrongly-typed field raises in Python, modelled as `none`.
(`cls(**data)` also rejects unknown extra keys; snapshots written by
`to_dict` carry exactly the ten known keys, so that path never fires on
saved state and is not modelled.) -/
def Position.from_dict (d : List (String × PValue)) : Option Position := do
  let .s mint ← dlookup "mint" d | none
  let .s symbol ← dlookup "symbol" d | none
  let .q entry_price_usd ← dlookup "entry_price_usd" d | none
  let .q entry_time ← dlookup "entry_time" d | none
  let .q position_size_usdc ← dlookup "position_size_usdc" d | none
  let .q token_amount ← dlookup "token_amount" d | none
  let .q stop_loss_price ← dlookup "stop_loss_price" d | none
  let .q take_profit_price ← dlookup "take_profit_price" d | none
  let .q current_price_usd ← dlookup "current_price_usd" d | none
  let .q realized_pnl_usd ← dlookup "realized_pnl_usd" d | none
  some { mint, symbol, entry_price_usd, entry_time, position_size_usdc, token_amount,
         stop_loss_price, take_profit_price, current_price_usd, realized_pnl_usd }

/-- The persisted state file written by `_save_state`:
`{"positions": {mint: position_dict}, "last_updated": time.time()}`.
Python dicts preserve insertion order, modelled as association lists. -/
structure SavedState where
  positions : List (String × List (String × PValue))
  last_updated : ℚ
deriving DecidableEq

/-- A record appended by `_log_trade` to `trade_history` and the JSONL file. -/
structure TradeRecord where
  timestamp : String
  action : String
  mint : String
  symbol : String
  entry_price : ℚ
  current_price : ℚ
  position_size_usdc : ℚ
  token_amount : ℚ
  pnl_usd : ℚ
  reason : String
deriving DecidableEq

/-- The trade record built in `_log_trade` (`timestamp` is
`datetime.now().isoformat()`, passed in as `nowIso`). -/
def trade_record (nowIso : String) (action : String) (position : Position)
    (reason : String) : TradeRecord :=
  { timestamp := nowIso, action := action, mint := position.mint, symbol := position.symbol,
    entry_price := position.entry_price_usd, current_price := position.current_price_usd,
    position_size_usdc := position.position_size_usdc, token_amount := position.token_amount,
    pnl_usd := if action = "CLOSE" then position.realized_pnl_usd else 0,
    reason := reason }

/-- The mutable state owned by a `TradeManager`: the in-memory position
dict and trade history, plus the two persisted files (state snapshot and
JSONL trade log) modelled explicitly. -/
structure TMState where
  positions : List (String × Position)
  trade_history : List TradeRecord
  tradesFile : List TradeRecord
  saved : Option SavedState
deriving DecidableEq

/-- The configuration values read by `TradeManager` from `config`. -/
structure Config where
  MAX_SIMULTANEOUS_POSITIONS : ℕ
  MAX_POSITION_SIZE_USDC : ℚ
  STOP_LOSS_PERCENT : ℚ
  TAKE_PROFIT_PERCENT : ℚ
deriving DecidableEq

/-- Association-list lookup with string keys (`mint in self.positions` /
`self.positions[mint]`). -/
def find? (mint : String) : List (String × Position) → Option Position
  | [] => none
  | (k, v) :: rest => if k = mint then some v else find? mint rest

/-- In-place value update of the dict entry for `mint`
(`position.current_price_usd = ...` mutates the object held in the dict). -/
def updateAssoc (mint : String) (p : Position) :
    List (String × Position) → List (String × Position)
  | [] => []
  | (k, v) :: rest =>
      if k = mint then (k, p) :: updateAssoc mint p rest
      else (k, v) :: updateAssoc mint p rest

/-- `del self.positions[mint]` (dict keys are unique). -/
def eraseKey (mint : String) : List (String × Position) → List (String × Position)
  | [] => []
  | (k, v) :: rest =>
      if k = mint then eraseKey mint rest else (k, v) :: eraseKey mint rest

/-- `_log_trade`: append the record to `trade_history` and to the JSONL file. -/
def log_trade (st : TMState) (rec : TradeRecord) : TMState :=
  { st with trade_history := st.trade_history ++ [rec],
            tradesFile := st.tradesFile ++ [rec] }

/-- `_save_state`: overwrite the state file with the serialized snapshot. -/
def save_state (positions : List (String × Position)) (now : ℚ) : SavedState :=
  { positions := positions.map (fun kv => (kv.1, kv.2.to_dict)), last_updated := now }

/-- The `Position` object constructed in `open_position` on a successful fill. -/
def new_position (now : ℚ) (mint symbol : String) (price_usd position_size
    stop_loss_price take_profit_price token_amount : ℚ) : Position :=
  { mint := mint, symbol := symbol, entry_price_usd := price_usd, entry_time := now,
    position_size_usdc := position_size, token_amount := token_amount,
    stop_loss_price := stop_loss_price, take_profit_price := take_profit_price,
    current_price_usd := price_usd, realized_pnl_usd := 0.0 }

/-- `TradeManager.open_position`.  `execBuy mint size` models the result of
`await self._execute_buy(mint, size)` (`none` = failed buy); `now` models
`time.time()`, `nowIso` the log timestamp. -/
def open_position (cfg : Config) (execBuy : String → ℚ → Option ℚ) (now : ℚ)
    (nowIso : String) (st : TMState) (mint symbol : String)
    (price_usd amount_usdc : ℚ) : Option Position × TMState :=
  if (find? mint st.positions).isSome then (none, st)
  else if cfg.MAX_SIMULTANEOUS_POSITIONS ≤ st.positions.length then (none, st)
  else
    let position_size := min amount_usdc cfg.MAX_POSITION_SIZE_USDC
    let stop_loss_price := price_usd * (1 + cfg.STOP_LOSS_PERCENT / 100)
    let take_profit_price := price_usd * (1 + cfg.TAKE_PROFIT_PERCENT / 100)
    match execBuy mint position_size with
    | none => (none, st)
    | some token_amount =>
      if token_amount ≤ 0 then (none, st)
      else
        let position := new_position now mint symbol price_usd position_size
          stop_loss_price take_profit_price token_amount
        let positions1 := st.positions ++ [(mint, position)]
        let st1 := log_trade { st with positions := positions1 }
          (trade_record nowIso "OPEN" position "")
        (some position, { st1 with saved := some (save_state positions1 now) })

/-- `TradeManager.close_position`.  `sellRes mint` models the result of
`await self._execute_sell(mint, position.token_amount)` (`none` = failed
sell, position left open). -/
def close_position (sellRes : String → Option ℚ) (now : ℚ) (nowIso : String)
    (st : TMState) (mint : String) (reason : String) : Option ℚ × TMState :=
  match find? mint st.positions with
  | none => (none, st)
  | some position =>
    match sellRes mint with
    | none => (none, st)
    | some usdc_received =>
      let realized_pnl := usdc_received - position.position_size_usdc
      let position1 := { position with realized_pnl_usd := realized_pnl }
      let st1 := log_trade { st with positions := updateAssoc mint position1 st.positions }
        (trade_record nowIso "CLOSE" position1 reason)
      let positions2 := eraseKey mint st1.positions
      (some usdc_received,
       { st1 with positions := positions2, saved := some (save_state positions2 now) })

/-- One closure entry of the `actions` list returned by `check_positions`. -/
structure ActionRec where
  action : String
  mint : String
  symbol : String
  pnl_usd : ℚ
deriving DecidableEq

/-- Outcome of one `check_positions` call.  `error` carries the
`RuntimeError` CPython raises from `next()` when the dict changed size
during iteration; on error the Python caller sees the exception (and the
local `actions` list is discarded), while all state mutations made before
the raise stand. -/
structure CheckResult where
  state : TMState
  actions : List ActionRec
  error : Option String
deriving DecidableEq

/-- The message of CPython's dict-mutation guard. -/
def dictChangedMsg : String := "RuntimeError: dictionary changed size during iteration"

/-- The `for mint, position in self.positions.items()` loop of
`check_positions`.  `items` is the entry list of the dict when iteration
began; `sizeChanged` records whether a deletion has occurred, in which
case the next iterator step raises `RuntimeError` (CPython checks
`ma_used` against the size captured at iterator creation on every
`next()`, including the final one). -/
def checkLoop (prices : String → Option ℚ) (sellRes : String → Option ℚ)
    (now : ℚ) (nowIso : String) :
    List (String × Position) → TMState → List ActionRec → Bool → CheckResult
  | [], st, actions, sizeChanged =>
      if sizeChanged then { state := st, actions := actions, error := some dictChangedMsg }
      else { state := st, actions := actions, error := none }
  | (mint, position) :: rest, st, actions, sizeChanged =>
      if sizeChanged then { state := st, actions := actions, error := some dictChangedMsg }
      else
        match prices mint with
        | none =>
            -- missing price: warn and `continue`, position left untouched
            checkLoop prices sellRes now nowIso rest st actions sizeChanged
        | some pr =>
            -- `position.current_price_usd = prices[mint]` mutates the shared object
            let position := { position with current_price_usd := pr }
            let st := { st with positions := updateAssoc mint position st.positions }
            if position.should_stop_loss then
              match close_position sellRes now nowIso st mint "stop_loss" with
              | (none, st1) => checkLoop prices sellRes now nowIso rest st1 actions sizeChanged
              | (some usdc, st1) =>
                  -- close_position set `position.realized_pnl_usd` on the shared object
                  let position := { position with
                    realized_pnl_usd := usdc - position.position_size_usdc }
                  let act : ActionRec :=
                    { action := "stop_loss", mint := mint,
                      symbol := position.symbol, pnl_usd := position.realized_pnl_usd }
                  checkLoop prices sellRes now nowIso rest st1 (actions ++ [act]) true
            else if position.should_take_profit then
              match close_position sellRes now nowIso st mint "take_profit" with
              | (none, st1) => checkLoop prices sellRes now nowIso rest st1 actions sizeChanged
              | (some usdc, st1) =>
                  let position := { position with
                    realized_pnl_usd := usdc - position.position_size_usdc }
                  let act : ActionRec :=
                    { action := "take_profit", mint := mint,
                      symbol := position.symbol, pnl_usd := position.realized_pnl_usd }
                  checkLoop prices sellRes now nowIso rest st1 (actions ++ [act]) true
            else checkLoop prices sellRes now nowIso rest st actions sizeChanged

/-- `TradeManager.check_positions`.  `prices` models the dict returned by
the one batched `get_token_prices(mints)` call (ids it cannot price are
omitted, modelled as `none`). -/
def check_positions (prices : String → Option ℚ) (sellRes : String → Option ℚ)
    (now : ℚ) (nowIso : String) (st : TMState) : CheckResult :=
  if st.positions = [] then { state := st, actions := [], error := none }
  else checkLoop prices sellRes now nowIso st.positions st [] false

/-- `_load_state`'s loop: deserialize each saved position into the (empty)
in-memory dict; an exception (`from_dict` failure) is caught by the
surrounding `try`, keeping whatever was loaded before it. -/
def load_positions : List (String × List (String × PValue)) →
    List (String × Position) → List (String × Position)
  | [], acc => acc
  | (mint, d) :: rest, acc =>
      match Position.from_dict d with
      | some p => load_positions rest (acc ++ [(mint, p)])
      | none => acc

/-- A freshly constructed `TradeManager`'s position dict: `__init__` sets
`positions = {}` then `_load_state()` fills it from the state file
(missing file ⇒ empty). -/
def freshManagerPositions (file : Option SavedState) : List (String × Position) :=
  match file with
  | none => []
  | some s => load_positions s.positions []

end TM

namespace Ev

/-- A strategy parameter dict (string keys to numeric values). -/
abbrev Params := List (String × ℚ)

/-- `strategy_evolver.StrategyVariant`. -/
structure StrategyVariant where
  id : String
  params : Params
  win_rate : ℚ
  trades : ℕ
  sharpe : ℚ
  pnl : ℚ
  created : String
  last_tested : String
deriving DecidableEq

/-- One entry of the `results` list fed to `select_best`
(`{'params': ..., 'win_rate': ..., 'trades': ..., 'sharpe': ...}`). -/
structure EvResult where
  params : Params
  win_rate : ℚ
  trades : ℕ
  sharpe : ℚ
deriving DecidableEq

/-- The evolver's mutable state: `base_strategy`, `variants`, `generation`,
`best_win_rate`, plus the append-only evolution log written by
`_log_evolution` to `strategy_tree.md`. -/
structure StrategyEvolver where
  base_strategy : Params
  variants : List StrategyVariant
  generation : ℕ
  best_win_rate : ℚ
  evolution_log : List EvResult
deriving DecidableEq

/-- `max(results, key=lambda x: x['win_rate'])`: Python's `max` keeps the
first element and replaces it only on a strictly greater key, so the first
maximal element wins; `max` of an empty sequence raises `ValueError`
(modelled as `none`). -/
def maxByWinRate : List EvResult → Option EvResult
  | [] => none
  | r :: rest =>
      some (rest.foldl (fun best x => if best.win_rate < x.win_rate then x else best) r)

/-- `StrategyEvolver.select_best`: returns the selected variant and the
evolver state after the call (`none` models the `ValueError` on an empty
results list, which leaves the state unchanged). -/
def select_best (ev : StrategyEvolver) (results : List EvResult) :
    Option (StrategyVariant × StrategyEvolver) :=
  match maxByWinRate results with
  | none => none
  | some best =>
    let ev1 :=
      if ev.best_win_rate < best.win_rate then
        { ev with best_win_rate := best.win_rate, base_strategy := best.params,
                  evolution_log := ev.evolution_log ++ [best] }
      else ev
    let variant : StrategyVariant :=
      { id := "best_" ++ toString ev.generation, params := best.params,
        win_rate := best.win_rate, trades := best.trades,
        sharpe := 0.0, pnl := 0.0, created := "", last_tested := "" }
    some (variant, ev1)

/-- The evolver state after one `select_best` call: a raised `ValueError`
propagates without mutating the state. -/
def select_best_state (ev : StrategyEvolver) (results : List EvResult) : StrategyEvolver :=
  ((select_best ev results).map Prod.snd).getD ev

end Ev

/-!  Concrete sample data, used by the counterexample/witness theorems. -/

/-- A history of one flat candle. -/
def histW : List Bt.Candle := [{ close := 100, high := 100, low := 100, volume := 1, time := 4 }]

/-- A candle whose volume clears the surge threshold of `stratW`. -/
def cW : Bt.Candle := { close := 200, high := 210, low := 190, volume := 1, time := 5 }

/-- A permissive strategy dict: any oscillator value and any volume fires `BUY`. -/
def stratW : Bt.Strategy :=
  { rsi_period := 14, rsi_low := 0, rsi_high := 100, vol_mult := 0,
    stop_atr_mult := 2, tp_percent := 1/4 }

/-- A flat run state with capital 201. -/
def stFlat : Bt.RunState := { position := none, trades := [], equity := 201 }

/-- The position `stepCandle 201 stratW histW cW stFlat` opens:
entry `200 × 1.005 = 201`, qty `201 × 0.1 / 201 = 0.1`,
fees `0.1 × 201 × 0.003 + 0.000005`, stop `201 × 0.85`, take `201 × 1.30`. -/
def posW : Bt.BtPosition :=
  { ptype := "long", entry := 201, qty := 1/10, fees := 12061/200000,
    sl := 3417/20, tp := 2613/10 }

/-- A run state holding `posW`. -/
def stLong : Bt.RunState := { position := some posW, trades := [], equity := 201 }

/-- A candle that touches both the stop (low 0) and the take-profit (high 300)
of `posW` in the same bar. -/
def cSL : Bt.Candle := { close := 0, high := 300, low := 0, volume := 0, time := 6 }

/-- Three candles with strictly rising closes (an all-gain sequence). -/
def candlesUp : List Bt.Candle :=
  [{ close := 1, high := 1, low := 1, volume := 1, time := 0 },
   { close := 2, high := 2, low := 2, volume := 1, time := 1 },
   { close := 3, high := 3, low := 3, volume := 1, time := 2 }]

/-- An open position on mint "A" whose stop (0.85) is hit at price 0.5. -/
def posA : TM.Position :=
  { mint := "A", symbol := "AAA", entry_price_usd := 1, entry_time := 0,
    position_size_usdc := 10, token_amount := 10, stop_loss_price := 85/100,
    take_profit_price := 13/10, current_price_usd := 1, realized_pnl_usd := 0 }

/-- An open position on mint "B" that would hit its take-profit (1.3) at
price 2, but has not been refreshed yet (current price 1). -/
def posB : TM.Position :=
  { mint := "B", symbol := "BBB", entry_price_usd := 1, entry_time := 0,
    position_size_usdc := 10, token_amount := 10, stop_loss_price := 85/100,
    take_profit_price := 13/10, current_price_usd := 1, realized_pnl_usd := 0 }

/-- A manager state with the two open positions "A" and "B". -/
def stAB : TM.TMState :=
  { positions := [("A", posA), ("B", posB)], trade_history := [], tradesFile := [],
    saved := none }

/-- The batched price feed: "A" at 0.5 (stop hit), "B" at 2 (take-profit hit). -/
def pricesAB : String → Option ℚ :=
  fun m => if m = "A" then some (1/2) else if m = "B" then some 2 else none

/-- The sell executor: selling "A" succeeds with 8 USDC. -/
def sellAB : String → Option ℚ := fun m => if m = "A" then some 8 else none

/-- A position whose levels are inverted (take 1 ≤ stop 2), so that a price
of 1.5 satisfies `should_stop_loss` and `should_take_profit` at once. -/
def posBoth : TM.Position :=
  { mint := "C", symbol := "CCC", entry_price_usd := 1, entry_time := 0,
    position_size_usdc := 10, token_amount := 4, stop_loss_price := 2,
    take_profit_price := 1, current_price_usd := 1, realized_pnl_usd := 0 }

/-- A manager state holding only `posBoth`. -/
def stBoth : TM.TMState :=
  { positions := [("C", posBoth)], trade_history := [], tradesFile := [], saved := none }

/-- Price feed pricing "C" at 1.5. -/
def pricesBoth : String → Option ℚ := fun m => if m = "C" then some (3/2) else none

/-- Sell executor: selling "C" succeeds with 9 USDC. -/
def sellBoth : String → Option ℚ := fun m => if m = "C" then some 9 else none

/-- The live configuration defaults from `config.py`. -/
def cfgW : TM.Config :=
  { MAX_SIMULTANEOUS_POSITIONS := 3, MAX_POSITION_SIZE_USDC := 50,
    STOP_LOSS_PERCENT := -15, TAKE_PROFIT_PERCENT := 30 }

/-- An empty manager state. -/
def stEmpty : TM.TMState :=
  { positions := [], trade_history := [], tradesFile := [], saved := none }

/-- A buy executor that always fills 4 tokens. -/
def buyW : String → ℚ → Option ℚ := fun _ _ => some 4

/-- A fresh evolver state (`__init__` has `best_win_rate = 0`). -/
def evW : Ev.StrategyEvolver :=
  { base_strategy := [("rsi_period", 14)], variants := [], generation := 0,
    best_win_rate := 0, evolution_log := [] }

/-- One backtest result with a 50% win rate. -/
def resW : Ev.EvResult := { params := [("rsi_period", 12)], win_rate := 1/2, trades := 3, sharpe := 0 }

/-- The variant `select_best evW [resW]` returns. -/
def varW : Ev.StrategyVariant :=
  { id := "best_" ++ toString (0 : ℕ), params := [("rsi_period", 12)], win_rate := 1/2,
    trades := 3, sharpe := 0.0, pnl := 0.0, created := "", last_tested := "" }

/-- The evolver state after `select_best evW [resW]` (new best 0.5 adopted). -/
def evW1 : Ev.StrategyEvolver :=
  { base_strategy := [("rsi_period", 12)], variants := [], generation := 0,
    best_win_rate := 1/2, evolution_log := [resW] }

/-- The position `open_position cfgW buyW 7 "t" stEmpty "A" "AAA" 2 100` creates:
size clamped to `min 100 50`, stop `2 × (1 − 15/100)`, take `2 × (1 + 30/100)`. -/
def posOpenW : TM.Position :=
  TM.new_position 7 "A" "AAA" 2 (min 100 50) (2 * (1 + (-15) / 100)) (2 * (1 + 30 / 100)) 4

/-!  Helper lemmas. -/

lemma mem_of_mem_lastSlice {α : Type _} {n : ℕ} {l : List α} {x : α}
    (h : x ∈ Bt.lastSlice n l) : x ∈ l := by
  unfold Bt.lastSlice at h
  split at h
  · exact h
  · exact List.drop_subset _ _ h

lemma gains_nonneg (candles : List Bt.Candle) : ∀ x ∈ Bt.gains candles, 0 ≤ x := by
  intro x hx
  simp only [Bt.gains, List.mem_map] at hx
  obtain ⟨ch, _, rfl⟩ := hx
  split
  · linarith
  · exact le_refl 0

lemma losses_nonneg (candles : List Bt.Candle) : ∀ x ∈ Bt.losses candles, 0 ≤ x := by
  intro x hx
  simp only [Bt.losses, List.mem_map] at hx
  obtain ⟨ch, _, rfl⟩ := hx
  split
  · exact le_refl 0
  · exact abs_nonneg ch

lemma avg_gain_nonneg (candles : List Bt.Candle) (period : ℕ) :
    0 ≤ Bt.avg_gain candles period := by
  unfold Bt.avg_gain
  apply div_nonneg
  · exact List.sum_nonneg fun x hx => gains_nonneg candles x (mem_of_mem_lastSlice hx)
  · exact_mod_cast Nat.zero_le period

lemma avg_loss_nonneg (candles : List Bt.Candle) (period : ℕ) :
    0 ≤ Bt.avg_loss candles period := by
  unfold Bt.avg_loss
  apply div_nonneg
  · exact List.sum_nonneg fun x hx => losses_nonneg candles x (mem_of_mem_lastSlice hx)
  · exact_mod_cast Nat.zero_le period

lemma priceChanges_nonneg (l : List Bt.Candle)
    (h : l.Chain' (fun a b => a.close ≤ b.close)) : ∀ x ∈ Bt.priceChanges l, 0 ≤ x := by
  induction l with
  | nil => simp [Bt.priceChanges]
  | cons a t ih =>
    cases t with
    | nil => simp [Bt.priceChanges]
    | cons b rest =>
      rw [List.chain'_cons] at h
      intro x hx
      rw [Bt.priceChanges] at hx
      rcases List.mem_cons.mp hx with h1 | h2
      · subst h1; linarith [h.1]
      · exact ih h.2 x h2

lemma avg_loss_eq_zero_of_chain (candles : List Bt.Candle) (period : ℕ)
    (h : candles.Chain' (fun a b => a.close ≤ b.close)) :
    Bt.avg_loss candles period = 0 := by
  unfold Bt.avg_loss
  have hsum : (Bt.lastSlice period (Bt.losses candles)).sum = 0 := by
    apply List.sum_eq_zero
    intro x hx
    have hx1 : x ∈ Bt.losses candles := mem_of_mem_lastSlice hx
    simp only [Bt.losses, List.mem_map] at hx1
    obtain ⟨ch, hch, rfl⟩ := hx1
    have hnn : 0 ≤ ch := priceChanges_nonneg candles h ch hch
    split
    · rfl
    · next hnp => rw [abs_of_nonneg hnn]; linarith [lt_or_eq_of_le hnn]
  rw [hsum, zero_div]

lemma from_dict_to_dict (p : TM.Position) :
    TM.Position.from_dict p.to_dict = some p := rfl

lemma load_positions_roundtrip (ps : List (String × TM.Position))
    (acc : List (String × TM.Position)) :
    TM.load_positions (ps.map fun kv => (kv.1, kv.2.to_dict)) acc = acc ++ ps := by
  induction ps generalizing acc with
  | nil => simp [TM.load_positions]
  | cons kv rest ih =>
    simp only [List.map_cons, TM.load_positions, from_dict_to_dict]
    rw [ih]
    simp

lemma checkSignal_param_indep (c : Bt.Candle) (strategy : Bt.Strategy)
    (hist : List Bt.Candle) (a b : ℚ) :
    Bt.checkSignal c { strategy with stop_atr_mult := a, tp_percent := b } hist
      = Bt.checkSignal c strategy hist := rfl

lemma stepCandle_param_indep (capital : ℚ) (strategy : Bt.Strategy)
    (hist : List Bt.Candle) (c : Bt.Candle) (st : Bt.RunState) (a b : ℚ) :
    Bt.stepCandle capital { strategy with stop_atr_mult := a, tp_percent := b } hist c st
      = Bt.stepCandle capital strategy hist c st := rfl

lemma runLoop_param_indep (capital : ℚ) (strategy : Bt.Strategy)
    (rest hist : List Bt.Candle) (st : Bt.RunState) (a b : ℚ) :
    Bt.runLoop capital { strategy with stop_atr_mult := a, tp_percent := b } hist rest st
      = Bt.runLoop capital strategy hist rest st := by
  induction rest generalizing hist st with
  | nil => rfl
  | cons c cs ih =>
    simp only [Bt.runLoop, stepCandle_param_indep]
    exact ih _ _

lemma select_best_state_mono (ev : Ev.StrategyEvolver) (rs : List Ev.EvResult) :
    ev.best_win_rate ≤ (Ev.select_best_state ev rs).best_win_rate := by
  unfold Ev.select_best_state Ev.select_best
  cases hmax : Ev.maxByWinRate rs with
  | none => simp
  | some best =>
    simp only [Option.map_some, Option.getD_some]
    by_cases hlt : ev.best_win_rate < best.win_rate
    · simp [hlt, le_of_lt hlt]
    · simp [hlt]

/-!  Claim theorems. -/

/-- C7: for every candle sequence of length strictly less than `period + 1`
and every period, `_calculate_rsi` returns exactly 50.0. -/
theorem rsi_short_history_neutral (candles : List Bt.Candle) (period : ℕ)
    (h : candles.length < period + 1) : Bt.calculateRsi candles period = 50.0 := by
  simp [Bt.calculateRsi, h]

theorem rsi_short_history_neutral_witness :
    histW.length < 14 + 1 ∧ Bt.calculateRsi histW 14 = 50.0 :=
  ⟨by decide, rsi_short_history_neutral histW 14 (by decide)⟩

/-- C4: persistence round-trip — for every position set, saving the state
snapshot (`_save_state`) and constructing a fresh `TradeManager` that loads
it (`_load_state`) yields an in-memory position set whose keys and
`Position` field values exactly equal the saved set. -/
theorem state_roundtrip_identity (ps : List (String × TM.Position)) (now : ℚ) :
    TM.freshManagerPositions (some (TM.save_state ps now)) = ps := by
  simp [TM.freshManagerPositions, TM.save_state, load_positions_roundtrip]

/-- C10: `BacktestEngine.run` mutates no field of the engine (the method
body assigns no attribute of `self`), so the engine after a call equals the
engine before it and repeated calls with equal inputs return equal results. -/
theorem run_frame_pure (e : Bt.BacktestEngine) (candles : List Bt.Candle)
    (strategy : Bt.Strategy) :
    (e.run candles strategy).2 = e ∧
    ((e.run candles strategy).2).run candles strategy = e.run candles strategy :=
  ⟨rfl, rfl⟩

/-- C5: during `BacktestEngine.run` at most one position is open: the loop
body never replaces an open position — while Long, a step either keeps the
same position (a `BUY` signal is ignored) or closes it (to Flat); the
`position` slot is the only position storage, so two positions never
coexist. -/
theorem run_at_most_one_position (capital : ℚ) (strategy : Bt.Strategy)
    (hist : List Bt.Candle) (c : Bt.Candle) (st : Bt.RunState) (p : Bt.BtPosition)
    (h : st.position = some p) :
    (Bt.stepCandle capital strategy hist c st).position = some p ∨
    (Bt.stepCandle capital strategy hist c st).position = none := by
  simp only [Bt.stepCandle, h]
  split
  · right; rfl
  · split
    · right; rfl
    · left; exact h

theorem run_at_most_one_position_witness :
    stLong.position = some posW ∧
    ((Bt.stepCandle 201 stratW histW cW stLong).position = some posW ∨
     (Bt.stepCandle 201 stratW histW cW stLong).position = none) :=
  ⟨rfl, run_at_most_one_position 201 stratW histW cW stLong posW rfl⟩



/-- C6: every position opened by `BacktestEngine.run` has entry
`close × (1 + 0.005)`, quantity `capital × 0.1 / entry`, stop
`entry × 0.85` and take-profit `entry × 1.30`, for every strategy dict;
and the whole run result is independent of the strategy's
`stop_atr_mult` / `tp_percent` fields. -/
theorem run_fixed_exit_band (capital : ℚ) (strategy : Bt.Strategy)
    (candles hist : List Bt.Candle) (c : Bt.Candle) (st : Bt.RunState) :
    (st.position = none → ∀ p, (Bt.stepCandle capital strategy hist c st).position = some p →
      p.entry = c.close * (1 + 0.005) ∧ p.qty = (capital * 0.1) / p.entry ∧
      p.sl = p.entry * 0.85 ∧ p.tp = p.entry * 1.30) ∧
    (∀ a b, Bt.runPure capital candles { strategy with stop_atr_mult := a, tp_percent := b }
      = Bt.runPure capital candles strategy) := by
  constructor
  · intro h p hp
    simp only [Bt.stepCandle, h] at hp
    split at hp
    · simp only [Option.some.injEq] at hp
      subst hp
      exact ⟨rfl, rfl, rfl, rfl⟩
    · rw [h] at hp; cases hp
  · intro a b
    simp only [Bt.runPure, runLoop_param_indep]

theorem run_fixed_exit_band_witness :
    stFlat.position = none ∧
    (Bt.stepCandle 201 stratW histW cW stFlat).position = some posW ∧
    (posW.entry = cW.close * (1 + 0.005) ∧ posW.qty = (201 * 0.1) / posW.entry ∧
     posW.sl = posW.entry * 0.85 ∧ posW.tp = posW.entry * 1.30) :=
  ⟨rfl,
   by norm_num [Bt.stepCandle, Bt.checkSignal, Bt.calculateRsi, Bt.FEES_slippage,
     Bt.FEES_swap, Bt.FEES_network, histW, cW, stratW, stFlat, posW],
   (run_fixed_exit_band 201 stratW [] histW cW stFlat).1 rfl posW
     (by norm_num [Bt.stepCandle, Bt.checkSignal, Bt.calculateRsi, Bt.FEES_slippage,
       Bt.FEES_swap, Bt.FEES_network, histW, cW, stratW, stFlat, posW])⟩

/-- C8: for every candle sequence of length at least `period + 1` whose
average loss over the trailing period is exactly 0 — in particular every
non-decreasing close sequence — `_calculate_rsi` returns exactly 100.0; the
division `avg_gain / avg_loss` sits under the `avg_loss == 0` guard, and the
result is always a finite rational in `[0, 100]` (never inf or NaN). -/
theorem rsi_zero_loss_hundred (candles : List Bt.Candle) (period : ℕ)
    (_hp : 0 < period) :
    (period + 1 ≤ candles.length → Bt.avg_loss candles period = 0 →
       Bt.calculateRsi candles period = 100.0) ∧
    (candles.Chain' (fun a b => a.close ≤ b.close) → period + 1 ≤ candles.length →
       Bt.calculateRsi candles period = 100.0) ∧
    (0 ≤ Bt.calculateRsi candles period ∧ Bt.calculateRsi candles period ≤ 100) := by
  have hmain : period + 1 ≤ candles.length → Bt.avg_loss candles period = 0 →
      Bt.calculateRsi candles period = 100.0 := by
    intro hlen hz
    simp [Bt.calculateRsi, Nat.not_lt.mpr hlen, hz]
  refine ⟨hmain, fun hchain hlen => hmain hlen (avg_loss_eq_zero_of_chain candles period hchain), ?_⟩
  unfold Bt.calculateRsi
  split
  · norm_num
  · split
    · norm_num
    · next hz =>
      have hg : 0 ≤ Bt.avg_gain candles period := avg_gain_nonneg candles period
      have hl : 0 ≤ Bt.avg_loss candles period := avg_loss_nonneg candles period
      have hrs : 0 ≤ Bt.avg_gain candles period / Bt.avg_loss candles period :=
        div_nonneg hg hl
      have h1 : (0:ℚ) < 1 + Bt.avg_gain candles period / Bt.avg_loss candles period := by
        linarith
      have h2 : (100:ℚ) / (1 + Bt.avg_gain candles period / Bt.avg_loss candles period) ≤ 100 := by
        apply div_le_self <;> [norm_num; linarith]
      have h3 : (0:ℚ) < 100 / (1 + Bt.avg_gain candles period / Bt.avg_loss candles period) := by
        positivity
      constructor <;> [linarith; linarith]

theorem rsi_zero_loss_hundred_witness :
    0 < 2 ∧ 2 + 1 ≤ candlesUp.length ∧ Bt.avg_loss candlesUp 2 = 0 ∧
    Bt.calculateRsi candlesUp 2 = 100.0 :=
  ⟨by decide, by decide,
   by norm_num [Bt.avg_loss, Bt.losses, Bt.priceChanges, Bt.lastSlice, candlesUp],
   (rsi_zero_loss_hundred candlesUp 2 (by decide)).1 (by decide)
     (by norm_num [Bt.avg_loss, Bt.losses, Bt.priceChanges, Bt.lastSlice, candlesUp])⟩

/-- C2: stop-loss is evaluated before take-profit in both exit paths.  In
`BacktestEngine.run`, a candle after entry with `low ≤ sl` records an "SL"
trade exiting at the stop price even when `high ≥ tp` in the same candle;
in `TradeManager.check_positions`, a position whose refreshed price
satisfies both `should_stop_loss` and `should_take_profit` is closed with
reason "stop_loss". -/
theorem stop_loss_checked_before_take_profit :
    (∀ (capital : ℚ) (strategy : Bt.Strategy) (hist : List Bt.Candle) (c : Bt.Candle)
       (st : Bt.RunState) (p : Bt.BtPosition),
       st.position = some p → c.low ≤ p.sl → p.tp ≤ c.high →
       (Bt.stepCandle capital strategy hist c st).trades = st.trades ++
         [{ entry := p.entry, exit := p.sl, pnl := (p.sl - p.entry) * p.qty - p.fees,
            type := "SL", timestamp := c.time }]) ∧
    (∀ (prices sellRes : String → Option ℚ) (now : ℚ) (nowIso : String)
       (st : TM.TMState) (mint : String) (p : TM.Position) (pr u : ℚ),
       st.positions = [(mint, p)] → prices mint = some pr →
       pr ≤ p.stop_loss_price → p.take_profit_price ≤ pr → sellRes mint = some u →
       (TM.check_positions prices sellRes now nowIso st).state.trade_history =
         st.trade_history ++
           [TM.trade_record nowIso "CLOSE"
             { p with current_price_usd := pr, realized_pnl_usd := u - p.position_size_usdc }
             "stop_loss"]) := by
  constructor
  · intro capital strategy hist c st p hpos hlow _htp
    simp only [Bt.stepCandle, hpos]
    rw [if_pos hlow]
  · intro prices sellRes now nowIso st mint p pr u hps hpr hsl _htp hsell
    obtain ⟨positions, th, tf, sv⟩ := st
    simp only at hps
    subst hps
    simp only [TM.check_positions, TM.checkLoop, TM.close_position, TM.find?, TM.updateAssoc,
      TM.eraseKey, TM.log_trade, TM.Position.should_stop_loss, hpr, hsell,
      decide_eq_true_eq, List.cons_ne_nil, if_false, if_true, eq_self_iff_true,
      Bool.false_eq_true]
    rw [if_pos hsl]

theorem stop_loss_checked_before_take_profit_witness :
    (stLong.position = some posW ∧ cSL.low ≤ posW.sl ∧ posW.tp ≤ cSL.high ∧
     (Bt.stepCandle 201 stratW histW cSL stLong).trades = stLong.trades ++
       [{ entry := posW.entry, exit := posW.sl,
          pnl := (posW.sl - posW.entry) * posW.qty - posW.fees,
          type := "SL", timestamp := cSL.time }]) ∧
    (stBoth.positions = [("C", posBoth)] ∧ pricesBoth "C" = some (3/2) ∧
     (3/2 : ℚ) ≤ posBoth.stop_loss_price ∧ posBoth.take_profit_price ≤ (3/2 : ℚ) ∧
     sellBoth "C" = some 9 ∧
     (TM.check_positions pricesBoth sellBoth 7 "t" stBoth).state.trade_history =
       stBoth.trade_history ++
         [TM.trade_record "t" "CLOSE"
           { posBoth with current_price_usd := 3/2,
                          realized_pnl_usd := 9 - posBoth.position_size_usdc } "stop_loss"]) :=
  ⟨⟨rfl, by norm_num [cSL, posW], by norm_num [cSL, posW],
    stop_loss_checked_before_take_profit.1 201 stratW histW cSL stLong posW rfl
      (by norm_num [cSL, posW]) (by norm_num [cSL, posW])⟩,
   ⟨rfl, rfl, by norm_num [posBoth], by norm_num [posBoth], rfl,
    stop_loss_checked_before_take_profit.2 pricesBoth sellBoth 7 "t" stBoth "C" posBoth (3/2) 9
      rfl rfl (by norm_num [posBoth]) (by norm_num [posBoth]) rfl⟩⟩

/-- C3: `open_position` returns `None` and leaves the position set, trade
log and persisted state unchanged when the instrument is already open, when
the open-position count has reached the configured maximum, or when the
external buy fill is null or ≤ 0; only on a successful positive fill does
it add the Position (size clamped to the configured max-per-position),
append an OPEN trade record and persist the snapshot. -/
theorem open_position_guard_and_commit (cfg : TM.Config) (execBuy : String → ℚ → Option ℚ)
    (now : ℚ) (nowIso : String) (st : TM.TMState) (mint symbol : String)
    (price_usd amount_usdc : ℚ) :
    ((TM.find? mint st.positions).isSome →
       TM.open_position cfg execBuy now nowIso st mint symbol price_usd amount_usdc = (none, st)) ∧
    (cfg.MAX_SIMULTANEOUS_POSITIONS ≤ st.positions.length →
       TM.open_position cfg execBuy now nowIso st mint symbol price_usd amount_usdc = (none, st)) ∧
    (execBuy mint (min amount_usdc cfg.MAX_POSITION_SIZE_USDC) = none →
       TM.open_position cfg execBuy now nowIso st mint symbol price_usd amount_usdc = (none, st)) ∧
    (∀ t, execBuy mint (min amount_usdc cfg.MAX_POSITION_SIZE_USDC) = some t → t ≤ 0 →
       TM.open_position cfg execBuy now nowIso st mint symbol price_usd amount_usdc = (none, st)) ∧
    (∀ t, TM.find? mint st.positions = none →
       st.positions.length < cfg.MAX_SIMULTANEOUS_POSITIONS →
       execBuy mint (min amount_usdc cfg.MAX_POSITION_SIZE_USDC) = some t → 0 < t →
       (TM.open_position cfg execBuy now nowIso st mint symbol price_usd amount_usdc =
          (some (TM.new_position now mint symbol price_usd
                   (min amount_usdc cfg.MAX_POSITION_SIZE_USDC)
                   (price_usd * (1 + cfg.STOP_LOSS_PERCENT / 100))
                   (price_usd * (1 + cfg.TAKE_PROFIT_PERCENT / 100)) t),
           { positions := st.positions ++ [(mint, TM.new_position now mint symbol price_usd
                            (min amount_usdc cfg.MAX_POSITION_SIZE_USDC)
                            (price_usd * (1 + cfg.STOP_LOSS_PERCENT / 100))
                            (price_usd * (1 + cfg.TAKE_PROFIT_PERCENT / 100)) t)],
             trade_history := st.trade_history ++
               [TM.trade_record nowIso "OPEN" (TM.new_position now mint symbol price_usd
                  (min amount_usdc cfg.MAX_POSITION_SIZE_USDC)
                  (price_usd * (1 + cfg.STOP_LOSS_PERCENT / 100))
                  (price_usd * (1 + cfg.TAKE_PROFIT_PERCENT / 100)) t) ""],
             tradesFile := st.tradesFile ++
               [TM.trade_record nowIso "OPEN" (TM.new_position now mint symbol price_usd
                  (min amount_usdc cfg.MAX_POSITION_SIZE_USDC)
                  (price_usd * (1 + cfg.STOP_LOSS_PERCENT / 100))
                  (price_usd * (1 + cfg.TAKE_PROFIT_PERCENT / 100)) t) ""],
             saved := some (TM.save_state (st.positions ++
               [(mint, TM.new_position now mint symbol price_usd
                  (min amount_usdc cfg.MAX_POSITION_SIZE_USDC)
                  (price_usd * (1 + cfg.STOP_LOSS_PERCENT / 100))
                  (price_usd * (1 + cfg.TAKE_PROFIT_PERCENT / 100)) t)]) now) }) ∧
        (TM.new_position now mint symbol price_usd
           (min amount_usdc cfg.MAX_POSITION_SIZE_USDC)
           (price_usd * (1 + cfg.STOP_LOSS_PERCENT / 100))
           (price_usd * (1 + cfg.TAKE_PROFIT_PERCENT / 100)) t).position_size_usdc =
          min amount_usdc cfg.MAX_POSITION_SIZE_USDC)) := by
  refine ⟨?_, ?_, ?_, ?_, ?_⟩
  · intro h
    simp only [TM.open_position, h, if_true]
  · intro h
    simp only [TM.open_position, h, if_true]
    split <;> rfl
  · intro h
    simp only [TM.open_position, h]
    split
    · rfl
    · split
      · rfl
      · rfl
  · intro t hbuy ht
    simp only [TM.open_position, hbuy, ht, if_true]
    split
    · rfl
    · split <;> rfl
  · intro t hfind hlen hbuy ht
    simp only [TM.open_position, hfind, Option.isSome_none, Bool.false_eq_true, if_false,
      Nat.not_le.mpr hlen, hbuy, not_le.mpr ht]
    exact ⟨rfl, rfl⟩

theorem open_position_guard_and_commit_witness :
    TM.find? "A" stEmpty.positions = none ∧
    stEmpty.positions.length < cfgW.MAX_SIMULTANEOUS_POSITIONS ∧
    buyW "A" (min 100 cfgW.MAX_POSITION_SIZE_USDC) = some 4 ∧ (0:ℚ) < 4 ∧
    (TM.open_position cfgW buyW 7 "t" stEmpty "A" "AAA" 2 100 =
       (some posOpenW,
        { positions := stEmpty.positions ++ [("A", posOpenW)],
          trade_history := stEmpty.trade_history ++ [TM.trade_record "t" "OPEN" posOpenW ""],
          tradesFile := stEmpty.tradesFile ++ [TM.trade_record "t" "OPEN" posOpenW ""],
          saved := some (TM.save_state (stEmpty.positions ++ [("A", posOpenW)]) 7) }) ∧
     posOpenW.position_size_usdc = min 100 cfgW.MAX_POSITION_SIZE_USDC) :=
  ⟨rfl, by decide, rfl, by norm_num,
   (open_position_guard_and_commit cfgW buyW 7 "t" stEmpty "A" "AAA" 2 100).2.2.2.2 4 rfl
     (by decide) rfl (by norm_num)⟩

/-- C9: `StrategyEvolver.select_best` never decreases `best_win_rate`
(monotone over any sequence of calls, a failed call leaving the state
unchanged), and it replaces the base strategy only when the selected
result's win rate strictly exceeds the previous `best_win_rate`. -/
theorem select_best_never_decreases (ev : Ev.StrategyEvolver) (results : List Ev.EvResult) :
    (∀ v ev1, Ev.select_best ev results = some (v, ev1) →
       ev.best_win_rate ≤ ev1.best_win_rate ∧
       (ev1.base_strategy ≠ ev.base_strategy → ev.best_win_rate < v.win_rate)) ∧
    (∀ rss : List (List Ev.EvResult),
       ev.best_win_rate ≤ (rss.foldl Ev.select_best_state ev).best_win_rate) := by
  constructor
  · intro v ev1 h
    unfold Ev.select_best at h
    cases hmax : Ev.maxByWinRate results with
    | none => rw [hmax] at h; cases h
    | some best =>
      rw [hmax] at h
      simp only [Option.some.injEq, Prod.mk.injEq] at h
      obtain ⟨hv, hev⟩ := h
      by_cases hlt : ev.best_win_rate < best.win_rate
      · subst hev
        simp only [if_pos hlt]
        refine ⟨le_of_lt hlt, fun _ => ?_⟩
        rw [← hv]
        exact hlt
      · subst hev
        simp only [if_neg hlt]
        exact ⟨le_refl _, fun hne => absurd rfl hne⟩
  · intro rss
    induction rss generalizing ev with
    | nil => exact le_refl _
    | cons rs rest ih =>
      simp only [List.foldl_cons]
      exact le_trans (select_best_state_mono ev rs) (ih _)

theorem select_best_never_decreases_witness :
    Ev.select_best evW [resW] = some (varW, evW1) ∧
    evW.best_win_rate ≤ evW1.best_win_rate ∧
    (evW1.base_strategy ≠ evW.base_strategy → evW.best_win_rate < varW.win_rate) := by
  have h : Ev.select_best evW [resW] = some (varW, evW1) := by
    norm_num [Ev.select_best, Ev.maxByWinRate, evW, resW, varW, evW1]
  exact ⟨h, ((select_best_never_decreases evW [resW]).1 varW evW1 h).1,
         ((select_best_never_decreases evW [resW]).1 varW evW1 h).2⟩

/-- C1 (code bug): `check_positions` deletes the closed entry from
`self.positions` *while iterating* `self.positions.items()`, so the first
successful close makes the next iterator step raise
`RuntimeError: dictionary changed size during iteration`.  With positions
"A" and "B" both priced, "A"'s stop-loss close succeeds and the call then
raises: "B" is never price-refreshed (its current price stays 1 although
the batch priced it at 2, which would have triggered its take-profit), no
action list is returned, and the contract that every remaining position is
still checked in the same call is violated. -/
theorem check_positions_raises_after_first_close :
    (TM.check_positions pricesAB sellAB 7 "t" stAB).error = some TM.dictChangedMsg ∧
    (TM.check_positions pricesAB sellAB 7 "t" stAB).state.positions = [("B", posB)] ∧
    posB.current_price_usd = 1 ∧ pricesAB "B" = some 2 ∧
    ({ posB with current_price_usd := 2 } : TM.Position).should_take_profit = true := by
  refine ⟨?_, ?_, rfl, rfl, ?_⟩
  · norm_num [TM.check_positions, TM.checkLoop, TM.close_position, TM.find?, TM.updateAssoc,
      TM.eraseKey, TM.log_trade, TM.save_state, TM.trade_record,
      TM.Position.should_stop_loss, TM.Position.should_take_profit,
      stAB, posA, posB, pricesAB, sellAB, TM.dictChangedMsg, List.cons_ne_nil,
      show ("B":String) ≠ "A" by decide]
  · norm_num [TM.check_positions, TM.checkLoop, TM.close_position, TM.find?, TM.updateAssoc,
      TM.eraseKey, TM.log_trade, TM.save_state, TM.trade_record,
      TM.Position.should_stop_loss, TM.Position.should_take_profit,
      stAB, posA, posB, pricesAB, sellAB, TM.dictChangedMsg, List.cons_ne_nil,
      show ("B":String) ≠ "A" by decide]
  · norm_num [TM.Position.should_take_profit, posB]
